import Mathlib

/-
Verification development for the QTL text-classification pipeline in
bert_nd_grove_2.ipynb: a GloVe loader, an averaging text vectorizer, a
BERT+GloVe dataset builder with batch collation, a fusion classifier
(BertWithGlove), and a decision-threshold sweep.

Modelling conventions: Python floats are modelled as rationals, except in
the cross-entropy loss, where the transcendental operations exp and log are
passed in as function parameters so that every definition stays executable;
numpy arrays and torch tensors become Lean lists; a Python dict becomes an
association list; raised exceptions become Except values.
-/

/- ===== GloVe loading (cell 1 of the notebook) ===== -/

/-- One whitespace-separated field of a GloVe file line: its raw text and,
when the field parses as a number (np.float32), its numeric value. -/
structure GloveToken where
  raw : String
  asNum : Option ℚ
  deriving DecidableEq

/-- The exceptions the loader can raise: values[0] on an empty line raises
an index error; np.array(values[1:], dtype=np.float32) raises a value error
on a non-numeric field. -/
inductive GloveLoadError
  | indexError
  | valueError
  deriving DecidableEq

/-- np.array(values[1:], dtype=np.float32): succeeds only when every field
is numeric. -/
def parseVector : List GloveToken → Option (List ℚ)
  | [] => some []
  | t :: ts =>
    match t.asNum with
    | none => none
    | some q => (parseVector ts).map (fun v => q :: v)

/-- Python dict assignment embeddings[word] = vector on an association
list: replace an existing binding, else append a new one. -/
def dictInsert (m : List (String × List ℚ)) (k : String) (v : List ℚ) :
    List (String × List ℚ) :=
  if m.any (fun kv => kv.1 == k) then
    m.map (fun kv => if kv.1 == k then (k, v) else kv)
  else m ++ [(k, v)]

/-- The line loop of load_glove_embeddings with the dict built so far. -/
def loadGloveAux : List (String × List ℚ) → List (List GloveToken) →
    Except GloveLoadError (List (String × List ℚ))
  | emb, [] => Except.ok emb
  | _, [] :: _ => Except.error GloveLoadError.indexError
  | emb, (w :: vals) :: rest =>
    match parseVector vals with
    | none => Except.error GloveLoadError.valueError
    | some vec => loadGloveAux (dictInsert emb w.raw vec) rest

/-- load_glove_embeddings: each file line is already split into fields;
word := values[0], vector := np.array(values[1:], float32). -/
def load_glove_embeddings (lines : List (List GloveToken)) :
    Except GloveLoadError (List (String × List ℚ)) :=
  loadGloveAux [] lines

/- ===== text_to_avg_glove (cell 1 of the notebook) ===== -/

/-- Python str.split() over a character list: split on whitespace runs,
dropping empty pieces.  Processes the characters right to left, carrying
(finished words, current word). -/
def pySplitCore (cs : List Char) : List (List Char) × List Char :=
  cs.foldr (fun c acc =>
    if c.isWhitespace then
      if acc.2 = [] then (acc.1, []) else (acc.2 :: acc.1, [])
    else (acc.1, c :: acc.2)) ([], [])

/-- Python str.split() on a string. -/
def pySplit (s : String) : List String :=
  let p := pySplitCore s.data
  (if p.2 = [] then p.1 else p.2 :: p.1).map (fun cs => String.mk cs)

/-- np.mean(vectors, axis=0): element-wise sum divided by the number of
vectors.  Empty input (never reached by the caller) gives the empty list. -/
def meanVecs : List (List ℚ) → List ℚ
  | [] => []
  | v :: rest =>
    (rest.foldl (fun a u => List.zipWith (fun x y => x + y) a u) v).map
      (fun x => x / ((rest.length + 1 : ℕ) : ℚ))

/-- text_to_avg_glove: split the text on whitespace, look every token up in
the dict, collect the hits, return the zero vector of length embed_dim when
there are none and the element-wise average otherwise. -/
def text_to_avg_glove (text : String) (embeddings_dict : List (String × List ℚ))
    (embed_dim : ℕ) : List ℚ :=
  let tokens := pySplit text
  let vectors := tokens.foldl (fun acc token =>
    match List.lookup token embeddings_dict with
    | some v => acc ++ [v]
    | none => acc) []
  if vectors.length = 0 then List.replicate embed_dim (0 : ℚ)
  else meanVecs vectors

/-- The list of embedding vectors of the in-vocabulary tokens of a text, in
text order (the hits collected by the loop of text_to_avg_glove). -/
def gloveHits (text : String) (embeddings_dict : List (String × List ℚ)) :
    List (List ℚ) :=
  (pySplit text).filterMap (fun token => List.lookup token embeddings_dict)

/- ===== BertGloveDataset and collate_fn (cells 4 and 5) ===== -/

/-- One item returned by BertGloveDataset.__getitem__.  The labels field is
the optional "labels" dict entry. -/
structure EncodedItem where
  input_ids : List ℕ
  attention_mask : List ℕ
  glove_emb : List ℚ
  labels : Option ℤ
  deriving DecidableEq

/-- Index errors raised when __getitem__ reads past the end of a list. -/
inductive DataError
  | indexError
  deriving DecidableEq

/-- Modelled from the spec: the subword tokenizer is an external
collaborator (BertTokenizerFast), absent from the repository.  Its contract
with padding="max_length" and truncation=True is: truncate the token ids to
max_length, pad to exactly max_length with a padding token id, and set the
attention mask to 1 on real tokens and 0 on padding.  The raw
text-to-token-ids map is the parameter tok. -/
def hfEncode (tok : String → List ℕ) (padId maxLength : ℕ) (t : String) :
    List ℕ × List ℕ :=
  let ids := (tok t).take maxLength
  (ids ++ List.replicate (maxLength - ids.length) padId,
   List.replicate ids.length 1 ++ List.replicate (maxLength - ids.length) 0)

/-- The state built by BertGloveDataset.__init__: the texts and optional
labels as given, the precomputed GloVe averages, and the tokenizer
encodings. -/
structure BertGloveDataset where
  texts : List String
  labels : Option (List ℤ)
  glove_embs : List (List ℚ)
  encodings : List (List ℕ × List ℕ)

/-- BertGloveDataset.__init__: store texts and labels unchanged (no
validation), precompute the GloVe average of every text, and tokenize every
text with padding="max_length" and truncation=True. -/
def BertGloveDataset.build (texts : List String) (labels : Option (List ℤ))
    (glove_dict : List (String × List ℚ)) (tok : String → List ℕ)
    (padId maxLength glove_dim : ℕ) : BertGloveDataset :=
  BertGloveDataset.mk texts labels
    (texts.map (fun t => text_to_avg_glove t glove_dict glove_dim))
    (texts.map (fun t => hfEncode tok padId maxLength t))

/-- BertGloveDataset.__len__. -/
def BertGloveDataset.lenD (d : BertGloveDataset) : ℕ := d.texts.length

/-- BertGloveDataset.__getitem__: read the encodings and the GloVe average
at idx, and add a labels entry only when the label list is present (reading
it at idx, which can raise an index error). -/
def BertGloveDataset.getitem (d : BertGloveDataset) (idx : ℕ) :
    Except DataError EncodedItem :=
  match d.encodings[idx]?, d.glove_embs[idx]? with
  | some enc, some g =>
    match d.labels with
    | none => Except.ok (EncodedItem.mk enc.1 enc.2 g none)
    | some ls =>
      match ls[idx]? with
      | some l => Except.ok (EncodedItem.mk enc.1 enc.2 g (some l))
      | none => Except.error DataError.indexError
  | _, _ => Except.error DataError.indexError

/-- The batch dict returned by collate_fn.  The labels entry is always
present; it is none exactly when the Python value is None. -/
structure CollatedBatch where
  input_ids : List (List ℕ)
  attention_mask : List (List ℕ)
  glove_emb : List (List ℚ)
  labels : Option (List ℤ)
  deriving DecidableEq

/-- Exceptions collate_fn can raise: an empty batch has no batch[0] (and
torch.stack rejects an empty list); a missing "labels" key raises a key
error inside the list comprehension. -/
inductive CollateError
  | emptyBatch
  | keyError
  deriving DecidableEq

/-- torch.stack([x["labels"] for x in batch]): succeeds only when every
item has a labels entry, otherwise the comprehension raises a key error. -/
def stackLabels : List EncodedItem → Option (List ℤ)
  | [] => some []
  | x :: xs =>
    match x.labels with
    | none => none
    | some l => (stackLabels xs).map (fun ls => l :: ls)

/-- collate_fn: stack each field across the batch; labels are stacked only
when batch[0] has a labels entry, and the returned dict always carries a
labels entry (None when not stacked). -/
def collate_fn (batch : List EncodedItem) : Except CollateError CollatedBatch :=
  match batch with
  | [] => Except.error CollateError.emptyBatch
  | x0 :: rest =>
    match x0.labels with
    | some _ =>
      match stackLabels (x0 :: rest) with
      | some ls =>
        Except.ok (CollatedBatch.mk ((x0 :: rest).map (fun x => x.input_ids))
          ((x0 :: rest).map (fun x => x.attention_mask))
          ((x0 :: rest).map (fun x => x.glove_emb)) (some ls))
      | none => Except.error CollateError.keyError
    | none =>
      Except.ok (CollatedBatch.mk ((x0 :: rest).map (fun x => x.input_ids))
        ((x0 :: rest).map (fun x => x.attention_mask))
        ((x0 :: rest).map (fun x => x.glove_emb)) none)

/- ===== BertWithGlove (cell 6) ===== -/

/-- The slice of the transformers BertConfig that BertWithGlove reads. -/
structure BertConfig where
  hidden_size : ℕ
  num_labels : ℕ
  deriving DecidableEq

/-- BertWithGlove's own parameters: the configuration, the glove_dim
constructor argument, and the final linear classifier (weight rows and
bias).  The BERT encoder itself is an external collaborator; its pooled
output enters forward as an input. -/
structure BertWithGlove (α : Type) where
  config : BertConfig
  glove_dim : ℕ
  classifierW : List (List α)
  classifierB : List α

/-- combined_dim = config.hidden_size + glove_dim in __init__: the input
dimension of the classifier layer. -/
def combinedDim (config : BertConfig) (glove_dim : ℕ) : ℕ :=
  config.hidden_size + glove_dim

/-- Dot product of two equally long vectors. -/
def dotProd {α : Type} [Field α] (u v : List α) : α :=
  (List.zipWith (fun a b => a * b) u v).sum

/-- nn.Linear applied to one vector: one output per (weight row, bias)
pair. -/
def linearMap {α : Type} [Field α] (w : List (List α)) (b : List α)
    (x : List α) : List α :=
  List.zipWith (fun row bi => dotProd row x + bi) w b

/-- torch.zeros(pooled_output.size(0), 300) in forward: the fallback used
when glove_emb is None.  The second dimension is the literal 300 from the
source, not the configured glove_dim. -/
def glove_fallback (α : Type) [Field α] (batchSize : ℕ) : List (List α) :=
  List.replicate batchSize (List.replicate 300 (0 : α))

/-- torch.cat((pooled_output, glove_emb), dim=1): row-wise concatenation. -/
def combineFeatures {α : Type} (pooled g : List (List α)) : List (List α) :=
  List.zipWith (fun p q => p ++ q) pooled g

/-- torch.tensor([1.0, 3.0]): the class weights hardcoded in forward. -/
def class_weights (α : Type) [Field α] : List α := [1, 3]

/-- The softmax denominator of one logit row, with exp passed in. -/
def softmaxDenom {α : Type} [Field α] (expF : α → α) (x : List α) : α :=
  (x.map expF).sum

/-- The negative log-likelihood of class y under logits x:
log(sum exp x) - x[y]. -/
def nllTerm {α : Type} [Field α] (expF logF : α → α) (x : List α) (y : ℕ) : α :=
  logF (softmaxDenom expF x) - x.getD y 0

/-- nn.CrossEntropyLoss(weight=w) with the default mean reduction: the
weighted sum of per-example negative log-likelihoods divided by the sum of
the weights of the targets. -/
def crossEntropyLossW {α : Type} [Field α] (expF logF : α → α) (w : List α)
    (logits : List (List α)) (ys : List ℕ) : α :=
  (List.zipWith (fun x y => w.getD y 0 * nllTerm expF logF x y) logits ys).sum /
    (ys.map (fun y => w.getD y 0)).sum

/-- The dict returned by BertWithGlove.forward. -/
structure ForwardOutput (α : Type) where
  loss : Option α
  logits : List (List α)

/-- BertWithGlove.forward: dropout on the pooled encoder output, fallback
zeros when glove_emb is None, concatenation, the classifier layer, and a
weighted cross-entropy loss computed only when labels are supplied.  The
stochastic dropout and the transcendental exp/log are parameters. -/
def BertWithGlove.forward {α : Type} [Field α] (m : BertWithGlove α)
    (expF logF : α → α) (dropout : List α → List α) (pooled : List (List α))
    (glove_emb : Option (List (List α))) (labels : Option (List ℕ)) :
    ForwardOutput α :=
  let pooled2 := pooled.map dropout
  let g := match glove_emb with
    | none => glove_fallback α pooled2.length
    | some ge => ge
  let combined := combineFeatures pooled2 g
  let logits := combined.map (fun v => linearMap m.classifierW m.classifierB v)
  let loss := match labels with
    | none => none
    | some ys => some (crossEntropyLossW expF logF (class_weights α) logits ys)
  ForwardOutput.mk loss logits

/- ===== Metrics and the threshold sweep (cells 9 to 13) ===== -/

/-- (probs >= t).astype(int): predict 1 iff the probability is at least the
threshold. -/
def predLabels (probs : List ℚ) (t : ℚ) : List ℕ :=
  probs.map (fun p => if t ≤ p then 1 else 0)

/-- True positives of aligned label/prediction lists. -/
def truePosCount (yTrue yPred : List ℕ) : ℕ :=
  List.countP (fun a => a.1 == 1 && a.2 == 1) (yTrue.zip yPred)

/-- Positives of the true labels (true positives plus false negatives). -/
def actualPosCount (yTrue yPred : List ℕ) : ℕ :=
  List.countP (fun a => a.1 == 1) (yTrue.zip yPred)

/-- Predicted positives (true positives plus false positives). -/
def predPosCount (yTrue yPred : List ℕ) : ℕ :=
  List.countP (fun a => a.2 == 1) (yTrue.zip yPred)

/-- sklearn precision of the positive class, 0 when nothing is predicted
positive. -/
def precisionQ (yTrue yPred : List ℕ) : ℚ :=
  if predPosCount yTrue yPred = 0 then 0
  else (truePosCount yTrue yPred : ℚ) / (predPosCount yTrue yPred : ℚ)

/-- sklearn recall of the positive class, 0 when there are no positive true
labels. -/
def recallQ (yTrue yPred : List ℕ) : ℚ :=
  if actualPosCount yTrue yPred = 0 then 0
  else (truePosCount yTrue yPred : ℚ) / (actualPosCount yTrue yPred : ℚ)

/-- sklearn f1_score of the positive class: the harmonic mean of precision
and recall, 0 when both are 0. -/
def f1Q (yTrue yPred : List ℕ) : ℚ :=
  if precisionQ yTrue yPred + recallQ yTrue yPred = 0 then 0
  else 2 * precisionQ yTrue yPred * recallQ yTrue yPred /
    (precisionQ yTrue yPred + recallQ yTrue yPred)

/-- The body of the sweep loop: replace the running best exactly when the
new value is strictly greater. -/
def sweepStep (f : ℚ → ℚ) (best : ℚ × ℚ) (t : ℚ) : ℚ × ℚ :=
  if best.2 < f t then (t, f t) else best

/-- The threshold sweep of the last notebook cell: best_f1 = 0,
best_t = 0.5, then for each candidate t compute the F1 of
(dev_probs >= t) and keep t when its F1 strictly exceeds the best so
far.  Returns (best_t, best_f1). -/
def thresholdSweep (cands devProbs : List ℚ) (yDev : List ℕ) : ℚ × ℚ :=
  cands.foldl (sweepStep (fun t => f1Q yDev (predLabels devProbs t))) (1/2, 0)

/- ===== Helper lemmas ===== -/

/-- The hit-collecting loop of text_to_avg_glove is a filterMap. -/
lemma foldl_lookup_eq_filterMap (dict : List (String × List ℚ)) :
    ∀ (toks : List String) (acc : List (List ℚ)),
      toks.foldl (fun a token =>
        match List.lookup token dict with
        | some v => a ++ [v]
        | none => a) acc
      = acc ++ toks.filterMap (fun token => List.lookup token dict) := by
  intro toks
  induction toks with
  | nil => intro acc; simp
  | cons t ts ih =>
    intro acc
    rw [List.foldl_cons]
    cases h : List.lookup t dict with
    | none => simp only [h]; rw [ih]; simp [List.filterMap_cons, h]
    | some v => simp only [h]; rw [ih]; simp [List.filterMap_cons, h]

/-- Element access of a pointwise sum of two equally long vectors. -/
lemma zipWith_add_getD :
    ∀ (l1 l2 : List ℚ) (i : ℕ), i < l1.length → i < l2.length →
      (List.zipWith (fun x y => x + y) l1 l2).getD i 0 = l1.getD i 0 + l2.getD i 0 := by
  intro l1
  induction l1 with
  | nil => intro l2 i h1 _; simp at h1
  | cons a l1 ih =>
    intro l2 i h1 h2
    cases l2 with
    | nil => simp at h2
    | cons b l2 =>
      cases i with
      | zero => simp
      | succ n =>
        simp only [List.zipWith_cons_cons, List.getD_cons_succ]
        exact ih l2 n (by simpa using h1) (by simpa using h2)

/-- The vector-summing fold of np.mean: length preservation and
element-wise value. -/
lemma sumFold_spec :
    ∀ (vs : List (List ℚ)) (acc : List ℚ), (∀ v ∈ vs, v.length = acc.length) →
      (vs.foldl (fun a u => List.zipWith (fun x y => x + y) a u) acc).length = acc.length ∧
      ∀ i, i < acc.length →
        (vs.foldl (fun a u => List.zipWith (fun x y => x + y) a u) acc).getD i 0
          = acc.getD i 0 + (vs.map (fun v => v.getD i 0)).sum := by
  intro vs
  induction vs with
  | nil => intro acc _; exact ⟨rfl, by simp⟩
  | cons v vs ih =>
    intro acc hlen
    have hv : v.length = acc.length := hlen v (List.mem_cons_self v vs)
    have hstep : (List.zipWith (fun x y => x + y) acc v).length = acc.length := by
      simp [List.length_zipWith, hv]
    have htail : ∀ u ∈ vs, u.length = (List.zipWith (fun x y => x + y) acc v).length := by
      intro u hu; rw [hstep]; exact hlen u (List.mem_cons_of_mem v hu)
    obtain ⟨ihlen, ihget⟩ := ih (List.zipWith (fun x y => x + y) acc v) htail
    rw [List.foldl_cons]
    refine ⟨ihlen.trans hstep, ?_⟩
    intro i hi
    rw [ihget i (by rw [hstep]; exact hi)]
    rw [zipWith_add_getD acc v i hi (by rw [hv]; exact hi)]
    simp [add_assoc]

/-- Length and element-wise value of np.mean over equally long vectors. -/
lemma meanVecs_spec (v : List ℚ) (rest : List (List ℚ)) (dim : ℕ)
    (hv : v.length = dim) (hrest : ∀ u ∈ rest, u.length = dim) :
    (meanVecs (v :: rest)).length = dim ∧
    ∀ i, i < dim → (meanVecs (v :: rest))[i]? =
      some ((((v :: rest).map (fun u => u.getD i 0)).sum) / (((v :: rest).length : ℕ) : ℚ)) := by
  have hrest' : ∀ u ∈ rest, u.length = v.length := by
    intro u hu; rw [hv]; exact hrest u hu
  obtain ⟨hflen, hfget⟩ := sumFold_spec rest v hrest'
  constructor
  · simp only [meanVecs, List.length_map]
    rw [hflen, hv]
  · intro i hi
    have hi' : i < (rest.foldl (fun a u => List.zipWith (fun x y => x + y) a u) v).length := by
      rw [hflen, hv]; exact hi
    simp only [meanVecs, List.getElem?_map, List.getElem?_eq_getElem hi', Option.map_some']
    have hgetD : (rest.foldl (fun a u => List.zipWith (fun x y => x + y) a u) v)[i]
        = (rest.foldl (fun a u => List.zipWith (fun x y => x + y) a u) v).getD i 0 := by
      rw [List.getD_eq_getElem?_getD, List.getElem?_eq_getElem hi']
      rfl
    rw [hgetD, hfget i (by rw [hv]; exact hi)]
    simp [List.getD_eq_getElem?_getD]

/-- text_to_avg_glove in terms of the collected hits. -/
lemma text_to_avg_glove_eq (text : String) (dict : List (String × List ℚ)) (dim : ℕ) :
    text_to_avg_glove text dict dim =
      if gloveHits text dict = [] then List.replicate dim (0 : ℚ)
      else meanVecs (gloveHits text dict) := by
  have h := foldl_lookup_eq_filterMap dict (pySplit text) []
  simp only [List.nil_append] at h
  simp only [text_to_avg_glove, gloveHits, h, List.length_eq_zero]

/- ===== C2 ===== -/

/-- C2: text_to_avg_glove splits the text on whitespace, looks every token
up in the store, and returns the element-wise arithmetic mean of the hit
vectors, or the all-zero vector of length dim when there is no hit; on the
store cow -> [1,0], gene -> [0,1] with dim 2, the text "cow gene unknown"
maps to [1/2, 1/2] and an all-out-of-vocabulary text maps to [0, 0]. -/
theorem text_to_avg_glove_mean_spec (text : String) (dict : List (String × List ℚ)) (dim : ℕ) :
    (gloveHits text dict = [] → text_to_avg_glove text dict dim = List.replicate dim 0) ∧
    (∀ v rest, gloveHits text dict = v :: rest →
      (∀ u ∈ gloveHits text dict, u.length = dim) →
      (text_to_avg_glove text dict dim).length = dim ∧
      ∀ i, i < dim → (text_to_avg_glove text dict dim)[i]? =
        some (((gloveHits text dict).map (fun u => u.getD i 0)).sum /
          (((gloveHits text dict).length : ℕ) : ℚ))) ∧
    text_to_avg_glove "cow gene unknown" [("cow", [1, 0]), ("gene", [0, 1])] 2 = [1/2, 1/2] ∧
    text_to_avg_glove "xyz123 foobar" [("cow", [1, 0]), ("gene", [0, 1])] 2 = [0, 0] := by
  refine ⟨?_, ?_, ?_, ?_⟩
  · intro h
    rw [text_to_avg_glove_eq, h]
    simp
  · intro v rest hcons hlen
    rw [hcons] at hlen
    have hv : v.length = dim := hlen v (List.mem_cons_self v rest)
    have hrest : ∀ u ∈ rest, u.length = dim := fun u hu => hlen u (List.mem_cons_of_mem v hu)
    rw [text_to_avg_glove_eq, hcons]
    simp only [List.cons_ne_nil, if_false]
    exact meanVecs_spec v rest dim hv hrest
  · have h : gloveHits "cow gene unknown" [("cow", [1, 0]), ("gene", [0, 1])]
        = [[1, 0], [0, 1]] := by decide
    rw [text_to_avg_glove_eq, h, if_neg (List.cons_ne_nil _ _)]
    norm_num [meanVecs]
  · have h : gloveHits "xyz123 foobar" [("cow", [1, 0]), ("gene", [0, 1])] = [] := by decide
    rw [text_to_avg_glove_eq, h]
    simp [List.replicate]

/-- Witness for C2 at concrete inputs. -/
theorem text_to_avg_glove_mean_spec_witness :
    (gloveHits "cow gene" [("cow", [(1 : ℚ), 0]), ("gene", [0, 1])] = [[1, 0], [0, 1]]) ∧
    ((text_to_avg_glove "cow gene" [("cow", [(1 : ℚ), 0]), ("gene", [0, 1])] 2).length = 2 ∧
      ∀ i, i < 2 → (text_to_avg_glove "cow gene" [("cow", [(1 : ℚ), 0]), ("gene", [0, 1])] 2)[i]? =
        some (((gloveHits "cow gene" [("cow", [(1 : ℚ), 0]), ("gene", [0, 1])]).map
            (fun u => u.getD i 0)).sum /
          (((gloveHits "cow gene" [("cow", [(1 : ℚ), 0]), ("gene", [0, 1])]).length : ℕ) : ℚ))) ∧
    (gloveHits "zzz" [("cow", [(1 : ℚ), 0])] = [] ∧
      text_to_avg_glove "zzz" [("cow", [(1 : ℚ), 0])] 2 = List.replicate 2 0) :=
  ⟨by decide,
   (text_to_avg_glove_mean_spec "cow gene" [("cow", [(1 : ℚ), 0]), ("gene", [0, 1])] 2).2.1
     [1, 0] [[0, 1]] (by decide) (by decide),
   by decide,
   (text_to_avg_glove_mean_spec "zzz" [("cow", [(1 : ℚ), 0])] 2).1 (by decide)⟩

/- ===== C4 ===== -/

/-- Every line that has a first field and numeric remaining fields loads
without error, no matter how many fields each line has. -/
lemma loadGloveAux_ok : ∀ (lines : List (List GloveToken)),
    (∀ line ∈ lines, ∃ w vals, line = w :: vals ∧ (parseVector vals).isSome) →
    ∀ emb, ∃ out, loadGloveAux emb lines = Except.ok out := by
  intro lines
  induction lines with
  | nil => intro _ emb; exact ⟨emb, rfl⟩
  | cons line rest ih =>
    intro h emb
    obtain ⟨w, vals, hline, hsome⟩ := h line (List.mem_cons_self line rest)
    obtain ⟨vec, hvec⟩ := Option.isSome_iff_exists.mp hsome
    subst hline
    obtain ⟨out, hout⟩ := ih (fun l hl => h l (List.mem_cons_of_mem _ hl)) (dictInsert emb w.raw vec)
    exact ⟨out, by simp [loadGloveAux, hvec, hout]⟩

/-- C4, counterexample: a two-field line follows a three-field line, so the
loaded vectors have different dimensions, yet load_glove_embeddings returns
a store without raising anything; the claimed CorruptEmbeddingFile /
DimensionMismatch failures do not exist in the code. -/
theorem load_glove_no_dim_check_counterexample :
    load_glove_embeddings
        [[GloveToken.mk "cow" none, GloveToken.mk "1.0" (some 1), GloveToken.mk "2.0" (some 2)],
         [GloveToken.mk "gene" none, GloveToken.mk "3.0" (some 3)]]
      = Except.ok [("cow", [(1 : ℚ), 2]), ("gene", [3])] ∧
    [(1 : ℚ), 2].length ≠ [(3 : ℚ)].length :=
  ⟨rfl, by decide⟩

/-- C4, amended: load_glove_embeddings validates nothing beyond what
parsing forces.  A fully empty line raises an index error, a non-numeric
field after the first raises a value error, and otherwise the line's token
is bound to however many values the line carries and loading continues; any
collection of nonempty all-numeric lines loads successfully, with no
dimension-consistency check. -/
theorem load_glove_embeddings_behavior :
    (∀ (emb : List (String × List ℚ)) (rest : List (List GloveToken)),
      loadGloveAux emb ([] :: rest) = Except.error GloveLoadError.indexError) ∧
    (∀ (emb : List (String × List ℚ)) (w : GloveToken) (vals : List GloveToken)
        (rest : List (List GloveToken)), parseVector vals = none →
      loadGloveAux emb ((w :: vals) :: rest) = Except.error GloveLoadError.valueError) ∧
    (∀ (emb : List (String × List ℚ)) (w : GloveToken) (vals : List GloveToken)
        (vec : List ℚ) (rest : List (List GloveToken)), parseVector vals = some vec →
      loadGloveAux emb ((w :: vals) :: rest) = loadGloveAux (dictInsert emb w.raw vec) rest) ∧
    (∀ lines : List (List GloveToken),
      (∀ line ∈ lines, ∃ w vals, line = w :: vals ∧ (parseVector vals).isSome) →
      ∃ out, load_glove_embeddings lines = Except.ok out) := by
  refine ⟨?_, ?_, ?_, ?_⟩
  · intro emb rest; rfl
  · intro emb w vals rest h; simp [loadGloveAux, h]
  · intro emb w vals vec rest h; simp [loadGloveAux, h]
  · intro lines h; exact loadGloveAux_ok lines h []

/-- Witness for C4 at concrete inputs. -/
theorem load_glove_embeddings_behavior_witness :
    (loadGloveAux [] [[]] = Except.error GloveLoadError.indexError) ∧
    (parseVector [GloveToken.mk "x" none] = none ∧
      loadGloveAux [] [[GloveToken.mk "w" none, GloveToken.mk "x" none]]
        = Except.error GloveLoadError.valueError) ∧
    (parseVector [GloveToken.mk "1" (some 1)] = some [1] ∧
      loadGloveAux [] [[GloveToken.mk "w" none, GloveToken.mk "1" (some 1)]]
        = loadGloveAux (dictInsert [] "w" [1]) []) ∧
    (∃ out, load_glove_embeddings [[GloveToken.mk "w" none, GloveToken.mk "1" (some 1)]]
        = Except.ok out) :=
  ⟨load_glove_embeddings_behavior.1 [] [],
   ⟨rfl, load_glove_embeddings_behavior.2.1 [] (GloveToken.mk "w" none)
      [GloveToken.mk "x" none] [] rfl⟩,
   ⟨rfl, load_glove_embeddings_behavior.2.2.1 [] (GloveToken.mk "w" none)
      [GloveToken.mk "1" (some 1)] [1] [] rfl⟩,
   load_glove_embeddings_behavior.2.2.2 [[GloveToken.mk "w" none, GloveToken.mk "1" (some 1)]]
     (fun line hl => by
       rw [List.mem_singleton] at hl
       subst hl
       exact ⟨GloveToken.mk "w" none, [GloveToken.mk "1" (some 1)], rfl, rfl⟩)⟩

/- ===== C3 ===== -/

/-- Characterization of the strict-improvement fold of the sweep: either no
candidate beats the initial best and the fold returns it unchanged, or the
fold returns the first candidate attaining the maximum value. -/
lemma foldlBest_spec (f : ℚ → ℚ) :
    ∀ (l : List ℚ) (b : ℚ × ℚ),
      (List.foldl (sweepStep f) b l = b ∧ ∀ t ∈ l, f t ≤ b.2) ∨
      ((List.foldl (sweepStep f) b l).1 ∈ l ∧
       f (List.foldl (sweepStep f) b l).1 = (List.foldl (sweepStep f) b l).2 ∧
       b.2 < (List.foldl (sweepStep f) b l).2 ∧
       (∀ t ∈ l, f t ≤ (List.foldl (sweepStep f) b l).2) ∧
       ∃ pre post, l = pre ++ (List.foldl (sweepStep f) b l).1 :: post ∧
         ∀ t ∈ pre, f t < (List.foldl (sweepStep f) b l).2) := by
  intro l
  induction l with
  | nil =>
    intro b
    exact Or.inl ⟨rfl, by simp⟩
  | cons t ts ih =>
    intro b
    rw [List.foldl_cons]
    by_cases h : b.2 < f t
    · have hstep : sweepStep f b t = (t, f t) := by simp [sweepStep, h]
      rw [hstep]
      rcases ih (t, f t) with ⟨heq, hall⟩ | ⟨hmem, hf, hlt, hall, pre, post, hdec, hpre⟩
      · rw [heq]
        refine Or.inr ⟨List.mem_cons_self t ts, rfl, h, ?_, [], ts, rfl, ?_⟩
        · intro u hu
          rcases List.mem_cons.mp hu with rfl | hu
          · exact le_refl (f u)
          · exact hall u hu
        · intro u hu
          exact absurd hu (List.not_mem_nil u)
      · refine Or.inr ⟨List.mem_cons_of_mem t hmem, hf, lt_trans h hlt, ?_,
          t :: pre, post, ?_, ?_⟩
        · intro u hu
          rcases List.mem_cons.mp hu with rfl | hu
          · exact le_of_lt hlt
          · exact hall u hu
        · rw [List.cons_append, ← hdec]
        · intro u hu
          rcases List.mem_cons.mp hu with rfl | hu
          · exact hlt
          · exact hpre u hu
    · have hstep : sweepStep f b t = b := by simp [sweepStep, h]
      rw [hstep]
      rcases ih b with ⟨heq, hall⟩ | ⟨hmem, hf, hlt, hall, pre, post, hdec, hpre⟩
      · refine Or.inl ⟨heq, ?_⟩
        intro u hu
        rcases List.mem_cons.mp hu with rfl | hu
        · exact not_lt.mp h
        · exact hall u hu
      · refine Or.inr ⟨List.mem_cons_of_mem t hmem, hf, hlt, ?_, t :: pre, post, ?_, ?_⟩
        · intro u hu
          rcases List.mem_cons.mp hu with rfl | hu
          · exact le_trans (not_lt.mp h) (le_of_lt hlt)
          · exact hall u hu
        · rw [List.cons_append, ← hdec]
        · intro u hu
          rcases List.mem_cons.mp hu with rfl | hu
          · exact lt_of_le_of_lt (not_lt.mp h) hlt
          · exact hpre u hu

/-- True positives never exceed predicted positives. -/
lemma truePos_le_predPos (yt yp : List ℕ) : truePosCount yt yp ≤ predPosCount yt yp :=
  List.countP_mono_left (fun a _ h => by
    simp only [Bool.and_eq_true] at h
    exact h.2)

/-- With no predicted positives or no true positives, F1 is 0 rather than
an error. -/
lemma f1_degenerate (yt yp : List ℕ)
    (h : predPosCount yt yp = 0 ∨ truePosCount yt yp = 0) : f1Q yt yp = 0 := by
  have htp : truePosCount yt yp = 0 := by
    rcases h with h | h
    · exact Nat.le_zero.mp (h ▸ truePos_le_predPos yt yp)
    · exact h
  have hp : precisionQ yt yp = 0 := by
    unfold precisionQ
    split
    · rfl
    · rw [htp]; simp
  have hr : recallQ yt yp = 0 := by
    unfold recallQ
    split
    · rfl
    · rw [htp]; simp
  unfold f1Q
  rw [hp, hr]
  simp

/-- C3, counterexample: with dev labels all negative every candidate
threshold has F1 equal to 0, and the sweep returns the initialization
(0.5, 0); 0.5 is not a candidate, so the result is not the first (lowest)
candidate as the claim requires. -/
theorem threshold_sweep_default_counterexample :
    thresholdSweep [1/20, 3/50] [1/2] [0] = (1/2, 0) ∧
    ((1 : ℚ)/2) ∉ ([1/20, 3/50] : List ℚ) := by
  constructor
  · norm_num [thresholdSweep, sweepStep, f1Q, precisionQ, recallQ, truePosCount,
      actualPosCount, predPosCount, predLabels, List.countP, List.countP.go,
      Bool.cond_eq_if, beq_iff_eq]
  · norm_num

/-- C3, amended: when some candidate has positive F1, the sweep returns the
first candidate attaining the strictly greatest F1 (ties keep the first
one), together with that F1; when every candidate has F1 equal to 0 the
sweep returns the initialization (0.5, 0) instead of a candidate; a
threshold with no predicted positives or no true positives simply scores 0
and never aborts the sweep. -/
theorem threshold_sweep_first_max (cands devProbs : List ℚ) (yDev : List ℕ) :
    ((∃ t0 ∈ cands, 0 < f1Q yDev (predLabels devProbs t0)) →
      (thresholdSweep cands devProbs yDev).1 ∈ cands ∧
      f1Q yDev (predLabels devProbs (thresholdSweep cands devProbs yDev).1)
        = (thresholdSweep cands devProbs yDev).2 ∧
      (∀ t ∈ cands, f1Q yDev (predLabels devProbs t) ≤ (thresholdSweep cands devProbs yDev).2) ∧
      ∃ pre post, cands = pre ++ (thresholdSweep cands devProbs yDev).1 :: post ∧
        ∀ t ∈ pre, f1Q yDev (predLabels devProbs t) < (thresholdSweep cands devProbs yDev).2) ∧
    ((∀ t ∈ cands, f1Q yDev (predLabels devProbs t) = 0) →
      thresholdSweep cands devProbs yDev = (1/2, 0)) ∧
    (∀ (yt yp : List ℕ), predPosCount yt yp = 0 ∨ truePosCount yt yp = 0 → f1Q yt yp = 0) := by
  have hfold := foldlBest_spec (fun t => f1Q yDev (predLabels devProbs t)) cands (1/2, 0)
  refine ⟨?_, ?_, f1_degenerate⟩
  · rintro ⟨t0, ht0, hpos⟩
    rcases hfold with ⟨_, hall⟩ | ⟨hmem, hf, _, hall, pre, post, hdec, hpre⟩
    · exact absurd hpos (not_lt.mpr (hall t0 ht0))
    · exact ⟨hmem, hf, hall, pre, post, hdec, hpre⟩
  · intro hzero
    rcases hfold with ⟨heq, _⟩ | ⟨hmem, hf, hlt, _⟩
    · exact heq
    · rw [hzero _ hmem] at hf
      rw [← hf] at hlt
      simp at hlt

/-- Witness for C3 at concrete inputs. -/
theorem threshold_sweep_first_max_witness :
    ((0 : ℚ) < f1Q [1, 0] (predLabels [3/4, 1/4] (1/4)) ∧ ((1 : ℚ)/4) ∈ ([1/4, 1/2] : List ℚ)) ∧
    ((thresholdSweep [1/4, 1/2] [3/4, 1/4] [1, 0]).1 ∈ ([1/4, 1/2] : List ℚ) ∧
      f1Q [1, 0] (predLabels [3/4, 1/4] (thresholdSweep [1/4, 1/2] [3/4, 1/4] [1, 0]).1)
        = (thresholdSweep [1/4, 1/2] [3/4, 1/4] [1, 0]).2 ∧
      (∀ t ∈ ([1/4, 1/2] : List ℚ),
        f1Q [1, 0] (predLabels [3/4, 1/4] t) ≤ (thresholdSweep [1/4, 1/2] [3/4, 1/4] [1, 0]).2) ∧
      ∃ pre post, ([1/4, 1/2] : List ℚ)
          = pre ++ (thresholdSweep [1/4, 1/2] [3/4, 1/4] [1, 0]).1 :: post ∧
        ∀ t ∈ pre, f1Q [1, 0] (predLabels [3/4, 1/4] t)
          < (thresholdSweep [1/4, 1/2] [3/4, 1/4] [1, 0]).2) ∧
    f1Q [0] [0] = 0 := by
  have hpos : (0 : ℚ) < f1Q [1, 0] (predLabels [3/4, 1/4] (1/4)) := by
    norm_num [f1Q, precisionQ, recallQ, truePosCount, actualPosCount, predPosCount,
      predLabels, List.countP, List.countP.go, Bool.cond_eq_if, beq_iff_eq]
  refine ⟨⟨hpos, by norm_num⟩, ?_, ?_⟩
  · exact (threshold_sweep_first_max [1/4, 1/2] [3/4, 1/4] [1, 0]).1
      ⟨1/4, by norm_num, hpos⟩
  · exact (threshold_sweep_first_max [1/4, 1/2] [3/4, 1/4] [1, 0]).2.2 [0] [0]
      (Or.inl (by decide))

/- ===== C9 ===== -/

/-- Predicted positives with the rule p >= t contribute to the true-positive
count antitonically in t. -/
lemma truePos_pred_antitone (t1 t2 : ℚ) (h : t1 ≤ t2) :
    ∀ (yt : List ℕ) (probs : List ℚ),
      truePosCount yt (predLabels probs t2) ≤ truePosCount yt (predLabels probs t1) := by
  intro yt
  induction yt with
  | nil => intro probs; simp [truePosCount]
  | cons y ys ih =>
    intro probs
    cases probs with
    | nil => simp [truePosCount, predLabels]
    | cons p ps =>
      simp only [truePosCount, predLabels, List.map_cons, List.zip_cons_cons, List.countP_cons]
      have hrec := ih ps
      simp only [truePosCount, predLabels] at hrec
      apply Nat.add_le_add hrec
      by_cases ht2 : t2 ≤ p
      · have ht1 : t1 ≤ p := le_trans h ht2
        simp [ht2, ht1]
      · simp [ht2]

/-- The count of positive true labels among zipped pairs does not depend on
the threshold used for the predictions. -/
lemma actualPos_pred_eq (t1 t2 : ℚ) : ∀ (yt : List ℕ) (probs : List ℚ),
    actualPosCount yt (predLabels probs t1) = actualPosCount yt (predLabels probs t2) := by
  intro yt
  induction yt with
  | nil => intro probs; rfl
  | cons y ys ih =>
    intro probs
    cases probs with
    | nil => rfl
    | cons p ps =>
      simp only [actualPosCount, predLabels, List.map_cons, List.zip_cons_cons, List.countP_cons]
      have hrec := ih ps
      simp only [actualPosCount, predLabels] at hrec
      rw [hrec]

/-- Recall under the rule p >= t is antitone in the threshold. -/
lemma recall_pred_antitone (yt : List ℕ) (probs : List ℚ) (t1 t2 : ℚ) (h : t1 ≤ t2) :
    recallQ yt (predLabels probs t2) ≤ recallQ yt (predLabels probs t1) := by
  unfold recallQ
  rw [actualPos_pred_eq t2 t1 yt probs]
  by_cases h0 : actualPosCount yt (predLabels probs t1) = 0
  · simp [h0]
  · rw [if_neg h0, if_neg h0]
    exact div_le_div_of_nonneg_right
      (Nat.cast_le.mpr (truePos_pred_antitone t1 t2 h yt probs)) (Nat.cast_nonneg _)

/-- C9, counterexample: probabilities live in [0,1] and the decision rule is
p >= t, so at threshold 1.0 an example with probability exactly 1.0 is
still predicted positive, not negative as the claim states. -/
theorem predict_at_threshold_one_counterexample :
    ((0 : ℚ) ≤ 1 ∧ (1 : ℚ) ≤ 1) ∧
    predLabels [(1 : ℚ)] 1 = [1] ∧ ([1] : List ℕ) ≠ [0] := by
  refine ⟨⟨by norm_num, le_refl 1⟩, ?_, by decide⟩
  simp [predLabels]

/-- C9, amended: with probabilities in [0,1], threshold 0.0 predicts every
example positive; any threshold strictly above every probability (so any
threshold above the maximum, and 1.0 only when no probability equals 1)
predicts every example negative; and positive-class recall is monotonically
non-increasing as the threshold increases. -/
theorem threshold_rule_monotone :
    (∀ probs : List ℚ, (∀ p ∈ probs, 0 ≤ p) →
      predLabels probs 0 = List.replicate probs.length 1) ∧
    (∀ (probs : List ℚ) (t : ℚ), (∀ p ∈ probs, p < t) →
      predLabels probs t = List.replicate probs.length 0) ∧
    (∀ (yt : List ℕ) (probs : List ℚ) (t1 t2 : ℚ), t1 ≤ t2 →
      recallQ yt (predLabels probs t2) ≤ recallQ yt (predLabels probs t1)) := by
  refine ⟨?_, ?_, recall_pred_antitone⟩
  · intro probs h
    induction probs with
    | nil => rfl
    | cons p ps ih =>
      have hp : (0 : ℚ) ≤ p := h p (List.mem_cons_self p ps)
      have hps := ih (fun q hq => h q (List.mem_cons_of_mem p hq))
      simp only [predLabels, List.map_cons, if_pos hp, List.length_cons, List.replicate_succ]
      exact congrArg (fun l => 1 :: l) hps
  · intro probs t h
    induction probs with
    | nil => rfl
    | cons p ps ih =>
      have hp : p < t := h p (List.mem_cons_self p ps)
      have hps := ih (fun q hq => h q (List.mem_cons_of_mem p hq))
      simp only [predLabels, List.map_cons, if_neg (not_le.mpr hp), List.length_cons,
        List.replicate_succ]
      exact congrArg (fun l => 0 :: l) hps

/-- Witness for C9 at concrete inputs. -/
theorem threshold_rule_monotone_witness :
    predLabels [(1 : ℚ)/2, 0] 0 = [1, 1] ∧
    predLabels [(1 : ℚ)/2] (3/4) = [0] ∧
    recallQ [1, 0] (predLabels [(1 : ℚ)/2, 1/2] (3/4))
      ≤ recallQ [1, 0] (predLabels [(1 : ℚ)/2, 1/2] (1/4)) := by
  refine ⟨?_, ?_, threshold_rule_monotone.2.2 [1, 0] [(1 : ℚ)/2, 1/2] (1/4) (3/4) (by norm_num)⟩
  · have := threshold_rule_monotone.1 [(1 : ℚ)/2, 0] (by intro p hp; fin_cases hp <;> norm_num)
    simpa using this
  · have := threshold_rule_monotone.2.1 [(1 : ℚ)/2] (3/4) (by intro p hp; fin_cases hp; norm_num)
    simpa using this

/- ===== C5 and C8 ===== -/

/-- Both encoding components have length exactly max_length. -/
lemma hfEncode_shape (tok : String → List ℕ) (padId maxLength : ℕ) (t : String) :
    (hfEncode tok padId maxLength t).1.length = maxLength ∧
    (hfEncode tok padId maxLength t).2.length = maxLength := by
  have hk : ((tok t).take maxLength).length = min maxLength (tok t).length :=
    List.length_take maxLength (tok t)
  have hle : ((tok t).take maxLength).length ≤ maxLength := by
    rw [hk]; exact Nat.min_le_left _ _
  constructor
  · simp only [hfEncode, List.length_append, List.length_replicate]
    omega
  · simp only [hfEncode, List.length_append, List.length_replicate]
    omega

/-- The attention mask is 1 on real token positions and 0 on padding, and
the padded tail of the ids is the padding token id. -/
lemma hfEncode_values (tok : String → List ℕ) (padId maxLength : ℕ) (t : String) (i : ℕ) :
    (i < min maxLength (tok t).length → (hfEncode tok padId maxLength t).2[i]? = some 1) ∧
    (min maxLength (tok t).length ≤ i → i < maxLength →
      (hfEncode tok padId maxLength t).2[i]? = some 0 ∧
      (hfEncode tok padId maxLength t).1[i]? = some padId) := by
  have hk : ((tok t).take maxLength).length = min maxLength (tok t).length :=
    List.length_take maxLength (tok t)
  constructor
  · intro hi
    have hi' : i < ((tok t).take maxLength).length := by rw [hk]; exact hi
    simp only [hfEncode, List.getElem?_append, List.length_replicate, List.getElem?_replicate]
    rw [if_pos hi', if_pos hi']
  · intro hge hlt
    have h1 : ¬ i < ((tok t).take maxLength).length := by rw [hk]; omega
    have h2 : i - ((tok t).take maxLength).length
        < maxLength - ((tok t).take maxLength).length := by rw [hk]; omega
    constructor
    · simp only [hfEncode, List.getElem?_append, List.length_replicate, List.getElem?_replicate]
      rw [if_neg h1, if_pos h2]
    · simp only [hfEncode, List.getElem?_append, List.getElem?_replicate]
      rw [if_neg h1, if_pos h2]

/-- A successful __getitem__ returns the stored encodings at idx, and an
item with no label entry when the dataset holds no labels. -/
lemma getitem_ok_spec (d : BertGloveDataset) (idx : ℕ) (item : EncodedItem)
    (hok : d.getitem idx = Except.ok item) :
    (∃ enc, d.encodings[idx]? = some enc ∧
      item.input_ids = enc.1 ∧ item.attention_mask = enc.2) ∧
    (d.labels = none → item.labels = none) := by
  unfold BertGloveDataset.getitem at hok
  cases henc : d.encodings[idx]? with
  | none => simp [henc] at hok
  | some enc =>
    cases hg : d.glove_embs[idx]? with
    | none => simp [henc, hg] at hok
    | some g =>
      cases hl : d.labels with
      | none =>
        simp only [henc, hg, hl, Except.ok.injEq] at hok
        exact ⟨⟨enc, rfl, by rw [← hok], by rw [← hok]⟩, fun _ => by rw [← hok]⟩
      | some ls =>
        cases hli : ls[idx]? with
        | none => simp [henc, hg, hl, hli] at hok
        | some l =>
          simp only [henc, hg, hl, hli, Except.ok.injEq] at hok
          refine ⟨⟨enc, rfl, by rw [← hok], by rw [← hok]⟩, fun hn => ?_⟩
          exact Option.noConfusion hn

/-- C5: every item a BertGloveDataset produces has token ids and attention
mask of length exactly max_length, whatever the input text length: real
token positions carry mask 1, padding positions carry mask 0 and the
padding token id.  The subword tokenizer is modelled from the spec (see
hfEncode). -/
theorem dataset_fixed_shape (tok : String → List ℕ) (padId maxLength : ℕ)
    (texts : List String) (labels : Option (List ℤ))
    (gdict : List (String × List ℚ)) (gdim : ℕ) :
    ∀ idx item,
      (BertGloveDataset.build texts labels gdict tok padId maxLength gdim).getitem idx
        = Except.ok item →
      item.input_ids.length = maxLength ∧
      item.attention_mask.length = maxLength ∧
      (∀ i, i < min maxLength (tok (texts.getD idx "")).length →
        item.attention_mask[i]? = some 1) ∧
      (∀ i, min maxLength (tok (texts.getD idx "")).length ≤ i → i < maxLength →
        item.attention_mask[i]? = some 0 ∧ item.input_ids[i]? = some padId) := by
  intro idx item hok
  obtain ⟨⟨enc, henc, hids, hmask⟩, _⟩ := getitem_ok_spec _ idx item hok
  simp only [BertGloveDataset.build, List.getElem?_map] at henc
  obtain ⟨t, htext, henct⟩ := Option.map_eq_some'.mp henc
  replace henct : hfEncode tok padId maxLength t = enc := henct
  have hgetD : texts.getD idx "" = t := by
    rw [List.getD_eq_getElem?_getD, htext]; rfl
  rw [hgetD, hids, hmask, ← henct]
  exact ⟨(hfEncode_shape tok padId maxLength t).1, (hfEncode_shape tok padId maxLength t).2,
    fun i hi => (hfEncode_values tok padId maxLength t i).1 hi,
    fun i h1 h2 => (hfEncode_values tok padId maxLength t i).2 h1 h2⟩

/-- Witness for C5 at a concrete dataset exercising truncation and
padding. -/
theorem dataset_fixed_shape_witness :
    ((BertGloveDataset.build ["w"] none [] (fun _ => [5]) 9 3 2).getitem 0
      = Except.ok (EncodedItem.mk [5, 9, 9] [1, 0, 0] [0, 0] none)) ∧
    ((EncodedItem.mk [5, 9, 9] [1, 0, 0] ([0, 0] : List ℚ) none).input_ids.length = 3 ∧
      (EncodedItem.mk [5, 9, 9] [1, 0, 0] ([0, 0] : List ℚ) none).attention_mask.length = 3 ∧
      (∀ i, i < min 3 ((fun _ => [5]) (["w"].getD 0 "") : List ℕ).length →
        (EncodedItem.mk [5, 9, 9] [1, 0, 0] ([0, 0] : List ℚ) none).attention_mask[i]? = some 1) ∧
      (∀ i, min 3 ((fun _ => [5]) (["w"].getD 0 "") : List ℕ).length ≤ i → i < 3 →
        (EncodedItem.mk [5, 9, 9] [1, 0, 0] ([0, 0] : List ℚ) none).attention_mask[i]? = some 0 ∧
        (EncodedItem.mk [5, 9, 9] [1, 0, 0] ([0, 0] : List ℚ) none).input_ids[i]? = some 9)) :=
  ⟨by rfl,
   dataset_fixed_shape (fun _ => [5]) 9 3 ["w"] none [] 2 0
     (EncodedItem.mk [5, 9, 9] [1, 0, 0] [0, 0] none) (by rfl)⟩

/-- C8, counterexample: two texts with three labels: construction succeeds
(no LengthMismatch exists in the code), the dataset reports length 2, and
both items are produced, the extra label silently ignored. -/
theorem dataset_length_mismatch_counterexample :
    (["a", "b"].length ≠ [(0 : ℤ), 1, 1].length) ∧
    (BertGloveDataset.build ["a", "b"] (some [0, 1, 1]) [] (fun _ => []) 0 2 1).lenD = 2 ∧
    (BertGloveDataset.build ["a", "b"] (some [0, 1, 1]) [] (fun _ => []) 0 2 1).getitem 0
      = Except.ok (EncodedItem.mk [0, 0] [0, 0] [0] (some 0)) ∧
    (BertGloveDataset.build ["a", "b"] (some [0, 1, 1]) [] (fun _ => []) 0 2 1).getitem 1
      = Except.ok (EncodedItem.mk [0, 0] [0, 0] [0] (some 1)) :=
  ⟨by decide, rfl, by rfl, by rfl⟩

/-- C8, amended: BertGloveDataset construction performs no length
validation and always succeeds; a label list shorter than the texts only
fails later, with an index error, when __getitem__ reads an index at or
past its length; and when the label sequence is omitted every produced item
carries no label entry. -/
theorem dataset_no_length_validation (texts : List String) (ls : List ℤ)
    (gdict : List (String × List ℚ)) (tok : String → List ℕ) (padId maxLength gdim : ℕ) :
    (BertGloveDataset.build texts (some ls) gdict tok padId maxLength gdim).lenD
      = texts.length ∧
    (∀ idx, idx < texts.length → ls.length ≤ idx →
      (BertGloveDataset.build texts (some ls) gdict tok padId maxLength gdim).getitem idx
        = Except.error DataError.indexError) ∧
    (∀ idx item,
      (BertGloveDataset.build texts none gdict tok padId maxLength gdim).getitem idx
        = Except.ok item → item.labels = none) := by
  refine ⟨rfl, ?_, ?_⟩
  · intro idx hidx hlen
    have htext := List.getElem?_eq_getElem hidx
    have hls : ls[idx]? = none := List.getElem?_eq_none hlen
    simp [BertGloveDataset.getitem, BertGloveDataset.build, List.getElem?_map, htext, hls]
  · intro idx item hok
    exact (getitem_ok_spec _ idx item hok).2 rfl

/-- Witness for C8 at concrete inputs. -/
theorem dataset_no_length_validation_witness :
    ((0 : ℕ) < 1 ∧ ([] : List ℤ).length ≤ 0 ∧
      (BertGloveDataset.build ["a"] (some []) [] (fun _ => []) 0 2 1).getitem 0
        = Except.error DataError.indexError) ∧
    ((BertGloveDataset.build ["a"] none [] (fun _ => []) 0 2 1).getitem 0
        = Except.ok (EncodedItem.mk [0, 0] [0, 0] [0] none) ∧
      (EncodedItem.mk [0, 0] [0, 0] ([0] : List ℚ) none).labels = none) :=
  ⟨⟨Nat.zero_lt_one, Nat.le_refl 0,
    (dataset_no_length_validation ["a"] [] [] (fun _ => []) 0 2 1).2.1 0
      Nat.zero_lt_one (Nat.le_refl 0)⟩,
   ⟨by rfl,
    (dataset_no_length_validation ["a"] [] [] (fun _ => []) 0 2 1).2.2 0
      (EncodedItem.mk [0, 0] [0, 0] [0] none) (by rfl)⟩⟩

/- ===== C6 ===== -/

/-- When every item of the batch carries a label, the stacking
comprehension succeeds and returns the labels in batch order. -/
lemma stackLabels_all_some : ∀ (l : List EncodedItem), (∀ x ∈ l, (x.labels).isSome) →
    stackLabels l = some (l.map (fun x => x.labels.getD 0)) := by
  intro l
  induction l with
  | nil => intro _; rfl
  | cons x xs ih =>
    intro h
    obtain ⟨lx, hlx⟩ := Option.isSome_iff_exists.mp (h x (List.mem_cons_self x xs))
    simp only [stackLabels, hlx]
    rw [ih (fun y hy => h y (List.mem_cons_of_mem x hy))]
    simp [hlx]

/-- When some item of the batch lacks a label, the stacking comprehension
raises (returns none). -/
lemma stackLabels_has_none : ∀ (l : List EncodedItem), (∃ x ∈ l, x.labels = none) →
    stackLabels l = none := by
  intro l
  induction l with
  | nil => rintro ⟨x, hx, _⟩; exact absurd hx (List.not_mem_nil x)
  | cons y ys ih =>
    rintro ⟨x, hx, hnone⟩
    rcases List.mem_cons.mp hx with rfl | hx
    · simp [stackLabels, hnone]
    · cases hy : y.labels with
      | none => simp [stackLabels, hy]
      | some l0 => simp [stackLabels, hy, ih ⟨x, hx, hnone⟩]

/-- C6, counterexample: a batch whose first example lacks a label and whose
second example carries one is heterogeneous, yet collate_fn succeeds (no
HeterogeneousBatch failure) and silently drops the second label, returning
a batch whose labels entry is None. -/
theorem collate_hetero_batch_counterexample :
    collate_fn [EncodedItem.mk [1] [1] [] none, EncodedItem.mk [2] [1] [] (some 1)]
      = Except.ok (CollatedBatch.mk [[1], [2]] [[1], [1]] [[], []] none) ∧
    (EncodedItem.mk [1] [1] ([] : List ℚ) none).labels.isSome
      ≠ (EncodedItem.mk [2] [1] ([] : List ℚ) (some 1)).labels.isSome :=
  ⟨rfl, by decide⟩

/-- C6, amended: collate_fn decides by the first example alone.  If the
first example lacks a label, the batch collates successfully with a None
labels entry whatever the other examples carry; if the first example has a
label, collation stacks all labels in order and fails (key error) exactly
when some later example lacks one; the labels entry of the returned dict is
always present, holding None rather than being omitted. -/
theorem collate_first_example_decides (x0 : EncodedItem) (rest : List EncodedItem) :
    (x0.labels = none →
      collate_fn (x0 :: rest) = Except.ok (CollatedBatch.mk
        ((x0 :: rest).map (fun x => x.input_ids))
        ((x0 :: rest).map (fun x => x.attention_mask))
        ((x0 :: rest).map (fun x => x.glove_emb)) none)) ∧
    ((x0.labels).isSome → (∀ x ∈ x0 :: rest, (x.labels).isSome) →
      collate_fn (x0 :: rest) = Except.ok (CollatedBatch.mk
        ((x0 :: rest).map (fun x => x.input_ids))
        ((x0 :: rest).map (fun x => x.attention_mask))
        ((x0 :: rest).map (fun x => x.glove_emb))
        (some ((x0 :: rest).map (fun x => x.labels.getD 0))))) ∧
    ((x0.labels).isSome → (∃ x ∈ rest, x.labels = none) →
      collate_fn (x0 :: rest) = Except.error CollateError.keyError) := by
  refine ⟨?_, ?_, ?_⟩
  · intro h
    simp [collate_fn, h]
  · intro h0 hall
    obtain ⟨l0, hl0⟩ := Option.isSome_iff_exists.mp h0
    simp [collate_fn, hl0, stackLabels_all_some _ hall]
  · intro h0 hex
    obtain ⟨l0, hl0⟩ := Option.isSome_iff_exists.mp h0
    obtain ⟨x, hx, hn⟩ := hex
    have hstack : stackLabels (x0 :: rest) = none :=
      stackLabels_has_none _ ⟨x, List.mem_cons_of_mem x0 hx, hn⟩
    simp [collate_fn, hl0, hstack]

/-- Witness for C6 at concrete batches. -/
theorem collate_first_example_decides_witness :
    (collate_fn [EncodedItem.mk [3] [1] [] none]
      = Except.ok (CollatedBatch.mk [[3]] [[1]] [[]] none)) ∧
    (collate_fn [EncodedItem.mk [3] [1] [] (some 1), EncodedItem.mk [4] [1] [] (some 0)]
      = Except.ok (CollatedBatch.mk [[3], [4]] [[1], [1]] [[], []] (some [1, 0]))) ∧
    (collate_fn [EncodedItem.mk [3] [1] [] (some 1), EncodedItem.mk [4] [1] [] none]
      = Except.error CollateError.keyError) :=
  ⟨(collate_first_example_decides (EncodedItem.mk [3] [1] [] none) []).1 rfl,
   (collate_first_example_decides (EncodedItem.mk [3] [1] [] (some 1))
     [EncodedItem.mk [4] [1] [] (some 0)]).2.1 (by decide) (by decide),
   (collate_first_example_decides (EncodedItem.mk [3] [1] [] (some 1))
     [EncodedItem.mk [4] [1] [] none]).2.2 (by decide) (by decide)⟩

/- ===== C1, C7, C10 ===== -/

set_option maxRecDepth 4000 in
/-- C1: the claim (and the spec) say a missing glove_emb is replaced by an
all-zero vector of the configured static dimension glove_dim; the code
hardcodes torch.zeros(batch_size, 300).  With glove_dim = 2 and
hidden_size = 3 the substituted rows have length 300, not 2, so the
concatenated row has dimension 3 + 300 = 303 while the classifier built in
__init__ expects combined_dim = 3 + 2 = 5: the forward pass contradicts its
own configuration whenever glove_dim is not 300. -/
theorem forward_fallback_glove_hardcoded_300 :
    glove_fallback ℚ 1 = [List.replicate 300 (0 : ℚ)] ∧
    (List.replicate 300 (0 : ℚ)).length = 300 ∧ (300 : ℕ) ≠ 2 ∧
    (combineFeatures [List.replicate 3 (0 : ℚ)] (glove_fallback ℚ 1)).headI.length = 3 + 300 ∧
    combinedDim (BertConfig.mk 3 2) 2 = 3 + 2 ∧ (3 + 300 : ℕ) ≠ 3 + 2 ∧
    (BertWithGlove.forward
        (BertWithGlove.mk (BertConfig.mk 3 2) 2
          (List.replicate 2 (List.replicate 5 (0 : ℚ))) [0, 0])
        id id id [List.replicate 3 (0 : ℚ)] none none).logits
      = (combineFeatures [List.replicate 3 (0 : ℚ)] (glove_fallback ℚ 1)).map
          (fun v => linearMap (List.replicate 2 (List.replicate 5 (0 : ℚ))) [0, 0] v) := by
  refine ⟨rfl, List.length_replicate 300 0, by decide, by decide, rfl, by decide, rfl⟩

/-- C7: the forward pass computes a loss exactly when labels are supplied;
the loss is the cross-entropy of the returned logits weighted by the fixed
class-weight vector [1, 3] (weight 1 for the negative class 0, weight 3 for
the positive class 1); with labels absent the loss entry is None while the
logits are still returned. -/
theorem forward_loss_iff_labels {α : Type} [Field α] (m : BertWithGlove α)
    (expF logF : α → α) (dropout : List α → List α) (pooled : List (List α))
    (glove_emb : Option (List (List α))) (labels : Option (List ℕ)) :
    ((m.forward expF logF dropout pooled glove_emb labels).loss).isSome = labels.isSome ∧
    (m.forward expF logF dropout pooled glove_emb labels).loss
      = labels.map (fun ys => crossEntropyLossW expF logF (class_weights α)
          ((m.forward expF logF dropout pooled glove_emb labels).logits) ys) ∧
    class_weights α = [1, 3] := by
  refine ⟨?_, ?_, rfl⟩
  · cases labels with
    | none => rfl
    | some ys => rfl
  · cases labels with
    | none => rfl
    | some ys => rfl

/-- C10: the logits of the forward pass do not depend on the labels
argument: any two label inputs, present or absent, give identical logits
with all other inputs and parameters equal; in particular the placeholder
all-zero label list the notebook uses to build the unlabeled test dataset
yields exactly the logits of a label-free call. -/
theorem forward_logits_label_independent {α : Type} [Field α] (m : BertWithGlove α)
    (expF logF : α → α) (dropout : List α → List α) (pooled : List (List α))
    (glove_emb : Option (List (List α))) :
    (∀ labels1 labels2 : Option (List ℕ),
      (m.forward expF logF dropout pooled glove_emb labels1).logits
        = (m.forward expF logF dropout pooled glove_emb labels2).logits) ∧
    ∀ n : ℕ,
      (m.forward expF logF dropout pooled glove_emb (some (List.replicate n 0))).logits
        = (m.forward expF logF dropout pooled glove_emb none).logits :=
  ⟨fun _ _ => rfl, fun _ => rfl⟩
